import Mathlib

/-!
Verification development for the `protoc-gen-simple-validate` /
`protoc-gen-template-validate` code generator of the golden-fleece-grpc
repository.  The Go source of the generator (types.go and main.go, embedded in
`internal/tools/protoc-gen-simple-validate/README.md`) is shallowly embedded
below: pure Go functions become Lean functions, Go pointers (`*uint64`,
`*string`) become `Option`, Go `nil`-able interface values become an explicit
sum type, and the two external collaborators that are not part of the
repository (the `text/template` engine and `go/format.Source`) are either
instantiated with the concrete (spec-modelled) templates or abstracted as
explicit function parameters.
-/

/-- Go `interface\x7b\x7d` value as used for `ValidationCheck.Value`
(either `nil`, a `uint64`, or a `string`). -/
inductive GoValue where
  | vnil : GoValue
  | vnat : Nat → GoValue
  | vstr : String → GoValue
deriving DecidableEq, Repr

/-- FieldValidation (types.go): the extracted validation rules of one message
field.  Go zero values are the Lean defaults; `*uint64` becomes `Option Nat`. -/
structure FieldValidation where
  FieldName : String := ""
  FieldType : String := ""
  IsRepeated : Bool := false
  IsOptional : Bool := false
  MinLen : Option Nat := none
  MaxLen : Option Nat := none
  Pattern : String := ""
  Email : Bool := false
  MinItems : Option Nat := none
  MaxItems : Option Nat := none
deriving DecidableEq, Repr

/-- MessageInfo (types.go): information about one protobuf message. -/
structure MessageInfo where
  GoName : String := ""
  GoPackage : String := ""
  Fields : List FieldValidation := []
  ReceiverName : String := ""
deriving DecidableEq, Repr

/-- FileInfo (types.go): information about one proto file, passed to the file
templates. -/
structure FileInfo where
  PackageName : String := ""
  SourcePath : String := ""
  Messages : List MessageInfo := []
  NeedsEmail : Bool := false
  FmtErrorf : String := ""
  RegexpMustCompile : String := ""
deriving DecidableEq, Repr

/-- ValidationCheck (types.go): one renderable check.  The Go field `Type` is
renamed `checkType` because `Type` is reserved in Lean. -/
structure ValidationCheck where
  checkType : String := ""
  Value : GoValue := GoValue.vnil
  FieldName : String := ""
  Receiver : String := ""
  ErrorMsg : String := ""
  Code : String := ""
  FmtErrorf : String := ""
  RegexpMustCompile : String := ""
  Pattern : String := ""
deriving DecidableEq, Repr

/-- FieldValidationData (types.go): the checks of one field, for the method
template. -/
structure FieldValidationData where
  FieldName : String := ""
  Validations : List ValidationCheck := []
deriving DecidableEq, Repr

/-- ValidateMethodData (types.go): data for the `Validate()` method template. -/
structure ValidateMethodData where
  MessageName : String := ""
  ReceiverName : String := ""
  Fields : List FieldValidationData := []
  FmtErrorf : String := ""
  RegexpMustCompile : String := ""
deriving DecidableEq, Repr

/-- StringRules of the `validate.rules` extension, as read by the extractor:
`min_len`/`max_len`/`pattern` carry explicit wire presence (`*uint64`,
`*string` in Go, hence `Option` here); `email` is read through `GetEmail()`
which yields a plain `bool`. -/
structure StringRules where
  MinLen : Option Nat := none
  MaxLen : Option Nat := none
  Pattern : Option String := none
  Email : Bool := false
deriving DecidableEq, Repr

/-- RepeatedRules of the `validate.rules` extension (`min_items`/`max_items`
with explicit wire presence). -/
structure RepeatedRules where
  MinItems : Option Nat := none
  MaxItems : Option Nat := none
deriving DecidableEq, Repr

/-- FieldRules: the decoded `validate.rules` payload.  Only the `string` and
`repeated` groups are read by the generator (`GetString_()` / `GetRepeated()`);
numeric-range groups are never inspected, so a payload carrying only them is
represented by both fields being `none`. -/
structure FieldRules where
  string_ : Option StringRules := none
  repeated : Option RepeatedRules := none
deriving DecidableEq, Repr

/-- Projection of `protogen.Field`: the Go name, the protobuf kind, the
repeated/optional flags, and the decoded `validate.rules` extension.
`rules = none` models any of: `field.Desc.Options() == nil`, the extension
being absent, or the type assertion to `*validate.FieldRules` failing —
all three Go paths return `nil` before any rule is read. -/
structure ProtoField where
  GoName : String := ""
  kind : String := "string"
  isList : Bool := false
  hasOptionalKeyword : Bool := false
  rules : Option FieldRules := none
deriving DecidableEq, Repr

/-- Projection of `protogen.Message`: Go identifier, import path, the
map-entry flag and the (top-level) field list in declaration order. -/
structure ProtoMessage where
  GoName : String := ""
  GoPackage : String := ""
  isMapEntry : Bool := false
  fields : List ProtoField := []
deriving DecidableEq, Repr

/-- Projection of `protogen.File`: generated-filename prefix, Go package name,
descriptor path and the message list in declaration order. -/
structure ProtoFile where
  GeneratedFilenamePrefix : String := ""
  GoPackageName : String := ""
  path : String := ""
  Messages : List ProtoMessage := []
deriving DecidableEq, Repr

/-- getReceiverName (main.go): first letter of the type name, lower-cased;
empty names and names starting with "p" give "m". -/
def getReceiverName (goTypeName : String) : String :=
  if goTypeName = "" then "m"
  else
    let first := String.mk [(goTypeName.data.headD 'm').toLower]
    if first = "p" then "m" else first

/-- extractFieldValidation (main.go): reads the `validate.rules` extension of
one field.  Returns `none` when the extension is absent or fails to decode;
otherwise builds a `FieldValidation`, copying `min_len`/`max_len`/`pattern`
only when explicitly present on the wire, `email` when `GetEmail()` is true,
and `min_items`/`max_items` only when explicitly present.  Note that the
resulting value is returned even when no constraint was populated. -/
def extractFieldValidation (field : ProtoField) : Option FieldValidation :=
  match field.rules with
  | none => none
  | some rules =>
    let validation : FieldValidation :=
      { FieldName := field.GoName
        FieldType := field.kind
        IsRepeated := field.isList
        IsOptional := field.hasOptionalKeyword }
    let validation :=
      match rules.string_ with
      | none => validation
      | some s =>
        let validation :=
          match s.MinLen with
          | some v => { validation with MinLen := some v }
          | none => validation
        let validation :=
          match s.MaxLen with
          | some v => { validation with MaxLen := some v }
          | none => validation
        let validation :=
          match s.Pattern with
          | some p => { validation with Pattern := p }
          | none => validation
        if s.Email then { validation with Email := true } else validation
    let validation :=
      match rules.repeated with
      | none => validation
      | some r =>
        let validation :=
          match r.MinItems with
          | some v => { validation with MinItems := some v }
          | none => validation
        match r.MaxItems with
        | some v => { validation with MaxItems := some v }
        | none => validation
    some validation

/-- extractMessageInfo (main.go): receiver name plus the `FieldValidation` of
every field whose extraction returned non-`nil`, in declaration order. -/
def extractMessageInfo (msg : ProtoMessage) : MessageInfo :=
  { GoName := msg.GoName
    GoPackage := msg.GoPackage
    Fields := msg.fields.filterMap extractFieldValidation
    ReceiverName := getReceiverName msg.GoName }

/-- hasMessages (main.go): does the file contain a non-map-entry message? -/
def hasMessages (f : ProtoFile) : Bool :=
  f.Messages.any (fun m => !m.isMapEntry)

/-- extractFileInfo (main.go): skips map-entry messages, extracts the rest in
order, and derives `NeedsEmail` from the retained fields. -/
def extractFileInfo (f : ProtoFile) (fmtErrorf regexpMustCompile : String) : FileInfo :=
  let messages := (f.Messages.filter (fun m => !m.isMapEntry)).map extractMessageInfo
  { PackageName := f.GoPackageName
    SourcePath := f.path
    Messages := messages
    NeedsEmail := messages.any (fun mi => mi.Fields.any (fun fld => fld.Email))
    FmtErrorf := fmtErrorf
    RegexpMustCompile := regexpMustCompile }

/-- Modelled from the spec: the rendering of `minLenCheckTemplate`
(templates.go is not part of the sources; the exact text is pinned by the
expected value in TestExecuteTemplate). -/
def minLenCheckRender (receiver fieldName : String) (value : Nat) (fmtErrorf : String) : String :=
  "\tif len(" ++ receiver ++ "." ++ fieldName ++ ") < " ++ toString value ++
    " \x7b\n\t\treturn " ++ fmtErrorf ++ "(\"field " ++ fieldName ++
    " must be at least " ++ toString value ++ " characters\")\n\t\x7d"

/-- Modelled from the spec: the rendering of `maxLenCheckTemplate`
(templates.go is missing; shape follows the README examples). -/
def maxLenCheckRender (receiver fieldName : String) (value : Nat) (fmtErrorf : String) : String :=
  "\tif len(" ++ receiver ++ "." ++ fieldName ++ ") > " ++ toString value ++
    " \x7b\n\t\treturn " ++ fmtErrorf ++ "(\"field " ++ fieldName ++
    " must be at most " ++ toString value ++ " characters\")\n\t\x7d"

/-- Modelled from the spec: the rendering of `patternCheckTemplate`
(templates.go is missing; shape follows the README examples, with the escaped
pattern literal substituted into the compile call). -/
def patternCheckRender (receiver fieldName patternEscaped fmtErrorf regexpMustCompile : String) : String :=
  "\tpattern" ++ fieldName ++ " := " ++ regexpMustCompile ++ "(" ++ patternEscaped ++
    ")\n\tif !pattern" ++ fieldName ++ ".MatchString(" ++ receiver ++ "." ++ fieldName ++
    ") \x7b\n\t\treturn " ++ fmtErrorf ++ "(\"field " ++ fieldName ++
    " does not match required pattern\")\n\t\x7d"

/-- Modelled from the spec: the rendering of `emailCheckTemplate`
(pinned by the expected value in TestExecuteTemplate). -/
def emailCheckRender (receiver fieldName fmtErrorf : String) : String :=
  "\tif !isValidEmail(" ++ receiver ++ "." ++ fieldName ++ ") \x7b\n\t\treturn " ++
    fmtErrorf ++ "(\"field " ++ fieldName ++ " must be a valid email address\")\n\t\x7d"

/-- Modelled from the spec: the rendering of `minItemsCheckTemplate`
(templates.go is missing; shape follows the README examples). -/
def minItemsCheckRender (receiver fieldName : String) (value : Nat) (fmtErrorf : String) : String :=
  "\tif len(" ++ receiver ++ "." ++ fieldName ++ ") < " ++ toString value ++
    " \x7b\n\t\treturn " ++ fmtErrorf ++ "(\"field " ++ fieldName ++
    " must have at least " ++ toString value ++ " items\")\n\t\x7d"

/-- Modelled from the spec: the rendering of `maxItemsCheckTemplate`
(templates.go is missing; shape follows the README examples). -/
def maxItemsCheckRender (receiver fieldName : String) (value : Nat) (fmtErrorf : String) : String :=
  "\tif len(" ++ receiver ++ "." ++ fieldName ++ ") > " ++ toString value ++
    " \x7b\n\t\treturn " ++ fmtErrorf ++ "(\"field " ++ fieldName ++
    " must have at most " ++ toString value ++ " items\")\n\t\x7d"

/-- Right-fold string concatenation (Go bytes.Buffer accumulation of a list of
fragments). -/
def concatStr : List String → String
  | [] => ""
  | s :: t => s ++ concatStr t

/-- Modelled from the spec: the rendering of `validateMethodTemplate`
(templates.go is missing; the signature "func (r *Name) Validate() error" and
the trailing "return nil" are pinned by TestValidateMethodTemplate, the body
is the concatenation of every check's `Code`). -/
def renderValidateMethod (d : ValidateMethodData) : String :=
  "func (" ++ d.ReceiverName ++ " *" ++ d.MessageName ++ ") Validate() error \x7b\n" ++
    concatStr (d.Fields.map (fun f => concatStr (f.Validations.map (fun c => c.Code ++ "\n")))) ++
    "\treturn nil\n\x7d\n\n"

/-- Modelled from the spec: the rendering of `fileHeaderTemplate`
(file header with provenance comment and package clause). -/
def fileHeaderRender (fi : FileInfo) : String :=
  "// Code generated by protoc-gen-simple-validate. DO NOT EDIT.\n// source: " ++
    fi.SourcePath ++ "\n\npackage " ++ fi.PackageName ++ "\n\n"

/-- Modelled from the spec: the rendering of `isValidEmailTemplate`
(the fixed email-shape helper shown in the README). -/
def isValidEmailRender (regexpMustCompile : String) : String :=
  "func isValidEmail(email string) bool \x7b\n\temailRegex := " ++ regexpMustCompile ++
    "(\"^[a-zA-Z0-9._%+\\\\-]+@[a-zA-Z0-9.\\\\-]+\\\\.[a-zA-Z]\x7b2,\x7d$\")\n\treturn emailRegex.MatchString(email)\n\x7d\n"

/-- addValidationCheck (main.go): appends a `ValidationCheck` unless the
rendered code is empty; `Value`, `RegexpMustCompile` and `Pattern` are only
set when non-`nil` resp. non-empty. -/
def addValidationCheck (checks : List ValidationCheck)
    (checkType fieldName receiver code fmtErrorf errorMsg : String)
    (value : GoValue) (regexpMustCompile pattern : String) : List ValidationCheck :=
  if code = "" then checks
  else
    let check : ValidationCheck :=
      { checkType := checkType
        FieldName := fieldName
        Receiver := receiver
        ErrorMsg := errorMsg
        Code := code
        FmtErrorf := fmtErrorf }
    let check := if value ≠ GoValue.vnil then { check with Value := value } else check
    let check := if regexpMustCompile ≠ "" then { check with RegexpMustCompile := regexpMustCompile } else check
    let check := if pattern ≠ "" then { check with Pattern := pattern } else check
    checks ++ [check]

/-- Lowercase hexadecimal digit, as used by Go strconv's escape sequences. -/
def lowerHexDigit (n : Nat) : Char :=
  if n < 10 then Char.ofNat (48 + n) else Char.ofNat (87 + n)

/-- Fixed-width big-endian lowercase hexadecimal rendering of a number. -/
def hexDigits : Nat → Nat → List Char
  | 0, _ => []
  | w + 1, n => hexDigits w (n / 16) ++ [lowerHexDigit (n % 16)]

/-- Model of Go `unicode.IsPrint` restricted to ASCII.  The real table also
marks many non-ASCII runes printable; the pattern round-trip below is proved
for an arbitrary printability predicate, so this restriction only makes the
concrete pipeline escape non-ASCII runes it could have emitted verbatim — the
unescaped value is unchanged either way. -/
def goIsPrint (c : Char) : Bool :=
  decide (0x20 ≤ c.toNat) && decide (c.toNat ≤ 0x7e)

/-- Model of the per-rune escaping performed by Go `strconv.Quote` (reached
through `fmt.Sprintf` with the `%q` verb in buildValidationChecks),
parameterized by the printability predicate: quote and backslash are
backslash-escaped, printable runes are kept verbatim, the seven standard
control escapes come next, and everything else becomes `\x`/`\u`/`\U` with
2/4/8 lowercase hex digits. -/
def quoteChar (p : Char → Bool) (c : Char) : List Char :=
  if c = '"' ∨ c = '\\' then ['\\', c]
  else if p c then [c]
  else if c = Char.ofNat 0x07 then ['\\', 'a']
  else if c = Char.ofNat 0x08 then ['\\', 'b']
  else if c = Char.ofNat 0x0c then ['\\', 'f']
  else if c = Char.ofNat 0x0a then ['\\', 'n']
  else if c = Char.ofNat 0x0d then ['\\', 'r']
  else if c = Char.ofNat 0x09 then ['\\', 't']
  else if c = Char.ofNat 0x0b then ['\\', 'v']
  else if c.toNat < 0x20 ∨ c.toNat = 0x7f then '\\' :: 'x' :: hexDigits 2 c.toNat
  else if c.toNat < 0x10000 then '\\' :: 'u' :: hexDigits 4 c.toNat
  else '\\' :: 'U' :: hexDigits 8 c.toNat

/-- Concatenated escaping of a rune sequence (the body of the quoted literal). -/
def quoteBody (p : Char → Bool) : List Char → List Char
  | [] => []
  | c :: t => quoteChar p c ++ quoteBody p t

/-- Model of Go `strconv.Quote` (`fmt.Sprintf` `%q`): the escaped body wrapped
in double quotes. -/
def goQuote (p : Char → Bool) (s : List Char) : List Char :=
  '"' :: (quoteBody p s ++ ['"'])

/-- String-level `%q` as used on `FieldValidation.Pattern` by
buildValidationChecks, instantiated with the concrete printability predicate. -/
def goQuoteString (s : String) : String :=
  String.mk (goQuote goIsPrint s.data)

/-- Value of one hexadecimal digit character, `none` for non-hex characters. -/
def hexVal? (c : Char) : Option Nat :=
  if '0' ≤ c ∧ c ≤ '9' then some (c.toNat - 48)
  else if 'a' ≤ c ∧ c ≤ 'f' then some (c.toNat - 87)
  else if 'A' ≤ c ∧ c ≤ 'F' then some (c.toNat - 55)
  else none

/-- Decoder for a single escape sequence of a Go double-quoted literal (the
part after the backslash): the seven standard control escapes, escaped quote
and backslash, and `x`/`u`/`U` hex escapes.  Returns the decoded rune and the
remaining input, or `none` for a malformed escape. -/
def unquoteEsc : List Char → Option (Char × List Char)
  | 'a' :: t => some (Char.ofNat 0x07, t)
  | 'b' :: t => some (Char.ofNat 0x08, t)
  | 'f' :: t => some (Char.ofNat 0x0c, t)
  | 'n' :: t => some (Char.ofNat 0x0a, t)
  | 'r' :: t => some (Char.ofNat 0x0d, t)
  | 't' :: t => some (Char.ofNat 0x09, t)
  | 'v' :: t => some (Char.ofNat 0x0b, t)
  | '\\' :: t => some ('\\', t)
  | '"' :: t => some ('"', t)
  | 'x' :: h1 :: h2 :: t =>
    (match hexVal? h1, hexVal? h2 with
     | some a, some b => some (Char.ofNat (16 * a + b), t)
     | _, _ => none)
  | 'u' :: h1 :: h2 :: h3 :: h4 :: t =>
    (match hexVal? h1, hexVal? h2, hexVal? h3, hexVal? h4 with
     | some a, some b, some a2, some b2 =>
       some (Char.ofNat (((a * 16 + b) * 16 + a2) * 16 + b2), t)
     | _, _, _, _ => none)
  | 'U' :: h1 :: h2 :: h3 :: h4 :: h5 :: h6 :: h7 :: h8 :: t =>
    (match hexVal? h1, hexVal? h2, hexVal? h3, hexVal? h4,
           hexVal? h5, hexVal? h6, hexVal? h7, hexVal? h8 with
     | some a, some b, some a2, some b2, some a3, some b3, some a4, some b4 =>
       some (Char.ofNat (((((((a * 16 + b) * 16 + a2) * 16 + b2) * 16 + a3) * 16 + b3) * 16 + a4) * 16 + b4), t)
     | _, _, _, _, _, _, _, _ => none)
  | _ => none

/-- Decoding loop of a Go double-quoted literal body: decodes runes and escape
sequences until the closing quote, which must end the input.  The `fuel`
argument only bounds the number of decoded runes (each step consumes at least
one input character, so the input length is always enough fuel); it makes the
recursion structural. -/
def unquoteLoop : Nat → List Char → Option (List Char)
  | _, [] => none
  | 0, _ :: _ => none
  | fuel + 1, c :: rest =>
    if c = '"' then (if rest = [] then some [] else none)
    else if c = '\\' then
      match unquoteEsc rest with
      | some (d, t) => (unquoteLoop fuel t).map (d :: ·)
      | none => none
    else (unquoteLoop fuel rest).map (c :: ·)

/-- Model of Go `strconv.Unquote` for double-quoted literals: requires the
opening quote and decodes the rest (the input length is enough fuel since
every decoding step consumes at least one character). -/
def goUnquote (l : List Char) : Option (List Char) :=
  match l with
  | '"' :: rest => unquoteLoop rest.length rest
  | _ => none

/-- buildValidationChecks (main.go): turns one `FieldValidation` into the
ordered check list, rendering each populated constraint through its template
(minLen, maxLen, pattern, email, minItems, maxItems, in this fixed order) and
appending via addValidationCheck.  The pattern is escaped with `%q` before
being substituted into the compile call. -/
def buildValidationChecks (field : FieldValidation)
    (receiver fmtErrorf regexpMustCompile : String) : List ValidationCheck :=
  let checks : List ValidationCheck := []
  let checks :=
    match field.MinLen with
    | some v =>
      addValidationCheck checks "minLen" field.FieldName receiver
        (minLenCheckRender receiver field.FieldName v fmtErrorf) fmtErrorf
        ("field " ++ field.FieldName ++ " must be at least " ++ toString v ++ " characters")
        (GoValue.vnat v) "" ""
    | none => checks
  let checks :=
    match field.MaxLen with
    | some v =>
      addValidationCheck checks "maxLen" field.FieldName receiver
        (maxLenCheckRender receiver field.FieldName v fmtErrorf) fmtErrorf
        ("field " ++ field.FieldName ++ " must be at most " ++ toString v ++ " characters")
        (GoValue.vnat v) "" ""
    | none => checks
  let checks :=
    if field.Pattern ≠ "" then
      let patternEscaped := goQuoteString field.Pattern
      addValidationCheck checks "pattern" field.FieldName receiver
        (patternCheckRender receiver field.FieldName patternEscaped fmtErrorf regexpMustCompile) fmtErrorf
        ("field " ++ field.FieldName ++ " does not match required pattern")
        (GoValue.vstr field.Pattern) regexpMustCompile patternEscaped
    else checks
  let checks :=
    if field.Email then
      addValidationCheck checks "email" field.FieldName receiver
        (emailCheckRender receiver field.FieldName fmtErrorf) fmtErrorf
        ("field " ++ field.FieldName ++ " must be a valid email address")
        GoValue.vnil "" ""
    else checks
  let checks :=
    match field.MinItems with
    | some v =>
      addValidationCheck checks "minItems" field.FieldName receiver
        (minItemsCheckRender receiver field.FieldName v fmtErrorf) fmtErrorf
        ("field " ++ field.FieldName ++ " must have at least " ++ toString v ++ " items")
        (GoValue.vnat v) "" ""
    | none => checks
  let checks :=
    match field.MaxItems with
    | some v =>
      addValidationCheck checks "maxItems" field.FieldName receiver
        (maxItemsCheckRender receiver field.FieldName v fmtErrorf) fmtErrorf
        ("field " ++ field.FieldName ++ " must have at most " ++ toString v ++ " items")
        (GoValue.vnat v) "" ""
    | none => checks
  checks

/-- buildFieldValidations (main.go): per-field check lists, dropping fields
whose check list came out empty. -/
def buildFieldValidations (msgInfo : MessageInfo) (fmtErrorf regexpMustCompile : String) :
    List FieldValidationData :=
  msgInfo.Fields.foldl
    (fun result field =>
      let checks := buildValidationChecks field msgInfo.ReceiverName fmtErrorf regexpMustCompile
      if checks.length > 0 then
        result ++ [{ FieldName := field.FieldName, Validations := checks }]
      else result)
    []

/-- ValidateMethodData built for each message by generateCodeWithTemplates. -/
def methodDatas (fi : FileInfo) : List ValidateMethodData :=
  fi.Messages.map (fun msgInfo =>
    { MessageName := msgInfo.GoName
      ReceiverName := msgInfo.ReceiverName
      Fields := buildFieldValidations msgInfo fi.FmtErrorf fi.RegexpMustCompile
      FmtErrorf := fi.FmtErrorf
      RegexpMustCompile := fi.RegexpMustCompile })

/-- generateCodeWithTemplates (main.go), with the behavior of the three
`text/template` executions and of `go/format.Source` made explicit.  A
template run yields the text it wrote into the buffer plus a success flag
(Go `Execute` may write a partial prefix and then fail).  A failing header
template makes the function return before anything reaches the generated file;
a failing method template only hits `continue` (a no-op at the end of the loop
body, so its partial output stays in the buffer); a failing email template is
explicitly ignored.  A failing `format.Source` falls back to the raw buffer.
The result is the text written to the `GeneratedFile` (`none` = nothing
written). -/
def generateCodeWithTemplatesE
    (headerTmpl : FileInfo → String × Bool)
    (methodTmpl : ValidateMethodData → String × Bool)
    (emailTmpl : String → String × Bool)
    (formatSource : String → Option String)
    (fileInfo : FileInfo) : Option String :=
  let h := headerTmpl fileInfo
  if h.2 = false then none
  else
    let buf := (methodDatas fileInfo).foldl (fun acc d => acc ++ (methodTmpl d).1) h.1
    let buf := if fileInfo.NeedsEmail then buf ++ (emailTmpl fileInfo.RegexpMustCompile).1 else buf
    some ((formatSource buf).getD buf)

/-- Concrete execution of `fileHeaderTemplate` (total: the fixed template
cannot fail on a `FileInfo`). -/
def fileHeaderTmplRun (fi : FileInfo) : String × Bool :=
  (fileHeaderRender fi, true)

/-- Concrete execution of `validateMethodTemplate`. -/
def validateMethodTmplRun (d : ValidateMethodData) : String × Bool :=
  (renderValidateMethod d, true)

/-- Concrete execution of `isValidEmailTemplate`. -/
def isValidEmailTmplRun (regexpMustCompile : String) : String × Bool :=
  (isValidEmailRender regexpMustCompile, true)

/-- generateCodeWithTemplates (main.go) with the concrete templates;
`go/format.Source` stays an explicit parameter since it is an external
collaborator. -/
def generateCodeWithTemplates (formatSource : String → Option String)
    (fileInfo : FileInfo) : Option String :=
  generateCodeWithTemplatesE fileHeaderTmplRun validateMethodTmplRun
    isValidEmailTmplRun formatSource fileInfo

/-- generateFileWithTemplate (main.go): skip files without non-map-entry
messages, otherwise create `<prefix>.pb.validate.go` and fill it from the
extracted `FileInfo` with the qualified identifiers of `fmt.Errorf` and
`regexp.MustCompile`. -/
def generateFileWithTemplate (formatSource : String → Option String)
    (f : ProtoFile) : Option (String × String) :=
  if hasMessages f = false then none
  else
    (generateCodeWithTemplates formatSource (extractFileInfo f "fmt.Errorf" "regexp.MustCompile")).map
      (fun content => (f.GeneratedFilenamePrefix ++ ".pb.validate.go", content))

/-- Raw rendered buffer (header, methods, optional email helper) before
`format.Source`, for a given template behavior. -/
def rawRendered (headerTmpl : FileInfo → String × Bool)
    (methodTmpl : ValidateMethodData → String × Bool)
    (emailTmpl : String → String × Bool) (fi : FileInfo) : String :=
  let buf := (methodDatas fi).foldl (fun acc d => acc ++ (methodTmpl d).1) (headerTmpl fi).1
  if fi.NeedsEmail then buf ++ (emailTmpl fi.RegexpMustCompile).1 else buf

/-- Environment in which a generated `Validate()` method runs: for each field
name, the `len()` of its current value, and oracles for the outcomes of the
compiled pattern match and of `isValidEmail`. -/
structure GoEnv where
  strLen : String → Nat
  patMatch : String → Bool
  emailOk : String → Bool

/-- Go semantics of the code snippet a single `ValidationCheck` renders to
(the templates are modelled from the spec): the condition branches on the
check failing and returns the check's error message. -/
def checkDenote (env : GoEnv) (c : ValidationCheck) : Option String :=
  if c.checkType = "minLen" ∨ c.checkType = "minItems" then
    match c.Value with
    | GoValue.vnat n => if env.strLen c.FieldName < n then some c.ErrorMsg else none
    | _ => none
  else if c.checkType = "maxLen" ∨ c.checkType = "maxItems" then
    match c.Value with
    | GoValue.vnat n => if env.strLen c.FieldName > n then some c.ErrorMsg else none
    | _ => none
  else if c.checkType = "pattern" then
    if env.patMatch c.FieldName then none else some c.ErrorMsg
  else if c.checkType = "email" then
    if env.emailOk c.FieldName then none else some c.ErrorMsg
  else none

/-- Go semantics of a generated `Validate()` method body: the checks run in
order, the first failing one returns its error, otherwise the method returns
nil (`none`). -/
def validateMethodSem (fields : List FieldValidationData) (env : GoEnv) : Option String :=
  (fields.flatMap (fun f => f.Validations)).findSome? (checkDenote env)

/-- Does a `FieldValidation` have at least one populated constraint? -/
def hasPopulatedConstraint (v : FieldValidation) : Bool :=
  v.MinLen.isSome || v.MaxLen.isSome || (v.Pattern != "") || v.Email ||
    v.MinItems.isSome || v.MaxItems.isSome

/-- Signature of the validation method generated for a message. -/
def methodSignature (m : ProtoMessage) : String :=
  "func (" ++ getReceiverName m.GoName ++ " *" ++ m.GoName ++ ") Validate() error"

theorem append_ne_empty_left (a b : String) (ha : a ≠ "") : a ++ b ≠ "" := by
  intro h
  apply ha
  have hd := congrArg String.data h
  rw [String.data_append] at hd
  rcases List.append_eq_nil.mp hd with ⟨h1, _⟩
  cases a
  simp_all

theorem minLenCheckRender_ne (r f : String) (v : Nat) (fe : String) :
    ¬ (minLenCheckRender r f v fe = "") := by
  unfold minLenCheckRender
  repeat apply append_ne_empty_left
  decide

theorem maxLenCheckRender_ne (r f : String) (v : Nat) (fe : String) :
    ¬ (maxLenCheckRender r f v fe = "") := by
  unfold maxLenCheckRender
  repeat apply append_ne_empty_left
  decide

theorem patternCheckRender_ne (r f pe fe rmc : String) :
    ¬ (patternCheckRender r f pe fe rmc = "") := by
  unfold patternCheckRender
  repeat apply append_ne_empty_left
  decide

theorem emailCheckRender_ne (r f fe : String) :
    ¬ (emailCheckRender r f fe = "") := by
  unfold emailCheckRender
  repeat apply append_ne_empty_left
  decide

theorem minItemsCheckRender_ne (r f : String) (v : Nat) (fe : String) :
    ¬ (minItemsCheckRender r f v fe = "") := by
  unfold minItemsCheckRender
  repeat apply append_ne_empty_left
  decide

theorem maxItemsCheckRender_ne (r f : String) (v : Nat) (fe : String) :
    ¬ (maxItemsCheckRender r f v fe = "") := by
  unfold maxItemsCheckRender
  repeat apply append_ne_empty_left
  decide

theorem goQuoteString_ne (s : String) : ¬ (goQuoteString s = "") := by
  intro h
  have hd := congrArg String.data h
  simp [goQuoteString, goQuote] at hd

theorem char_toNat_lt (c : Char) : c.toNat < 0x110000 := by
  rcases c.valid with h | ⟨h1, h2⟩ <;> · show c.val.toNat < _; omega

set_option maxHeartbeats 1000000 in
theorem hexVal_lowerHexDigit : ∀ x : Nat, x < 16 → hexVal? (lowerHexDigit x) = some x := by
  decide

theorem hexDigits_two (n : Nat) :
    hexDigits 2 n = [lowerHexDigit (n / 16 % 16), lowerHexDigit (n % 16)] := by
  simp [hexDigits]

theorem hexDigits_four (n : Nat) :
    hexDigits 4 n = [lowerHexDigit (n / 4096 % 16), lowerHexDigit (n / 256 % 16),
      lowerHexDigit (n / 16 % 16), lowerHexDigit (n % 16)] := by
  simp [hexDigits, Nat.div_div_eq_div_mul]

theorem hexDigits_eight (n : Nat) :
    hexDigits 8 n = [lowerHexDigit (n / 268435456 % 16), lowerHexDigit (n / 16777216 % 16),
      lowerHexDigit (n / 1048576 % 16), lowerHexDigit (n / 65536 % 16),
      lowerHexDigit (n / 4096 % 16), lowerHexDigit (n / 256 % 16),
      lowerHexDigit (n / 16 % 16), lowerHexDigit (n % 16)] := by
  simp [hexDigits, Nat.div_div_eq_div_mul]


theorem unquoteEsc_x (d1 d2 : Char) (t : List Char) :
    unquoteEsc ('x' :: d1 :: d2 :: t) =
      (match hexVal? d1, hexVal? d2 with
       | some a, some b => some (Char.ofNat (16 * a + b), t)
       | _, _ => none) := rfl

theorem unquoteEsc_u (d1 d2 d3 d4 : Char) (t : List Char) :
    unquoteEsc ('u' :: d1 :: d2 :: d3 :: d4 :: t) =
      (match hexVal? d1, hexVal? d2, hexVal? d3, hexVal? d4 with
       | some a, some b, some a2, some b2 =>
         some (Char.ofNat (((a * 16 + b) * 16 + a2) * 16 + b2), t)
       | _, _, _, _ => none) := rfl

theorem unquoteEsc_bigU (d1 d2 d3 d4 d5 d6 d7 d8 : Char) (t : List Char) :
    unquoteEsc ('U' :: d1 :: d2 :: d3 :: d4 :: d5 :: d6 :: d7 :: d8 :: t) =
      (match hexVal? d1, hexVal? d2, hexVal? d3, hexVal? d4,
             hexVal? d5, hexVal? d6, hexVal? d7, hexVal? d8 with
       | some a, some b, some a2, some b2, some a3, some b3, some a4, some b4 =>
         some (Char.ofNat (((((((a * 16 + b) * 16 + a2) * 16 + b2) * 16 + a3) * 16 + b3) * 16 + a4) * 16 + b4), t)
       | _, _, _, _, _, _, _, _ => none) := rfl

theorem unquoteLoop_mono (fuel : Nat) (l r : List Char)
    (h : unquoteLoop fuel l = some r) (k : Nat) :
    unquoteLoop (fuel + k) l = some r := by
  induction fuel generalizing l r with
  | zero => cases l <;> simp [unquoteLoop] at h
  | succ fuel ih =>
    cases l with
    | nil => simp [unquoteLoop] at h
    | cons c rest =>
      have hs : fuel + 1 + k = (fuel + k) + 1 := by omega
      rw [hs]
      simp only [unquoteLoop] at h ⊢
      by_cases hc : c = '"'
      · simp only [if_pos hc] at h ⊢
        exact h
      · by_cases hb : c = '\\'
        · simp only [if_neg hc, if_pos hb] at h ⊢
          rcases he : unquoteEsc rest with _ | ⟨d, t⟩
          · rw [he] at h
            simp at h
          · rw [he] at h
            have h2 : Option.map (fun x => d :: x) (unquoteLoop fuel t) = some r := h
            show Option.map (fun x => d :: x) (unquoteLoop (fuel + k) t) = some r
            rcases hmap : unquoteLoop fuel t with _ | r2
            · rw [hmap] at h2
              simp at h2
            · rw [hmap] at h2
              simp only [Option.map_some'] at h2
              rw [ih t r2 hmap, Option.map_some']
              exact h2
        · simp only [if_neg hc, if_neg hb] at h ⊢
          rcases hmap : unquoteLoop fuel rest with _ | r2
          · rw [hmap] at h
            simp at h
          · rw [hmap] at h
            simp at h
            rw [ih rest r2 hmap]
            simp [h]

theorem unquoteLoop_backslash (fuel : Nat) (r0 : List Char) :
    unquoteLoop (fuel + 1) ('\\' :: r0) =
      (match unquoteEsc r0 with
       | some (d, t) => (unquoteLoop fuel t).map (d :: ·)
       | none => none) := rfl

set_option maxHeartbeats 4000000 in
theorem unquoteLoop_quoteChar (p : Char → Bool) (c : Char) (t : List Char) (fuel : Nat) :
    unquoteLoop (fuel + 1) (quoteChar p c ++ t) = (unquoteLoop fuel t).map (c :: ·) := by
  unfold quoteChar
  by_cases h1 : c = '"' ∨ c = '\\'
  · rw [if_pos h1]
    rcases h1 with h | h <;> subst h <;> rfl
  · rw [if_neg h1]
    push_neg at h1
    by_cases h2 : p c = true
    · rw [if_pos h2]
      simp only [List.cons_append, List.nil_append]
      simp [unquoteLoop, h1.1, h1.2]
    · rw [if_neg h2]
      by_cases h3 : c = Char.ofNat 0x07
      · rw [if_pos h3]
        subst h3
        rfl
      · rw [if_neg h3]
        by_cases h4 : c = Char.ofNat 0x08
        · rw [if_pos h4]
          subst h4
          rfl
        · rw [if_neg h4]
          by_cases h5 : c = Char.ofNat 0x0c
          · rw [if_pos h5]
            subst h5
            rfl
          · rw [if_neg h5]
            by_cases h6 : c = Char.ofNat 0x0a
            · rw [if_pos h6]
              subst h6
              rfl
            · rw [if_neg h6]
              by_cases h7 : c = Char.ofNat 0x0d
              · rw [if_pos h7]
                subst h7
                rfl
              · rw [if_neg h7]
                by_cases h8 : c = Char.ofNat 0x09
                · rw [if_pos h8]
                  subst h8
                  rfl
                · rw [if_neg h8]
                  by_cases h9 : c = Char.ofNat 0x0b
                  · rw [if_pos h9]
                    subst h9
                    rfl
                  · rw [if_neg h9]
                    by_cases h10 : c.toNat < 0x20 ∨ c.toNat = 0x7f
                    · rw [if_pos h10]
                      have hn : c.toNat < 256 := by rcases h10 with h | h <;> omega
                      have hv : 16 * (c.toNat / 16 % 16) + c.toNat % 16 = c.toNat := by omega
                      rw [hexDigits_two]
                      simp only [List.cons_append]
                      rw [unquoteLoop_backslash, unquoteEsc_x,
                        hexVal_lowerHexDigit _ (by omega), hexVal_lowerHexDigit _ (by omega)]
                      simp [hv, Char.ofNat_toNat]
                    · rw [if_neg h10]
                      by_cases h11 : c.toNat < 0x10000
                      · rw [if_pos h11]
                        have hv : ((c.toNat / 4096 % 16 * 16 + c.toNat / 256 % 16) * 16
                            + c.toNat / 16 % 16) * 16 + c.toNat % 16 = c.toNat := by omega
                        rw [hexDigits_four]
                        simp only [List.cons_append]
                        rw [unquoteLoop_backslash, unquoteEsc_u,
                          hexVal_lowerHexDigit _ (by omega), hexVal_lowerHexDigit _ (by omega),
                          hexVal_lowerHexDigit _ (by omega), hexVal_lowerHexDigit _ (by omega)]
                        simp [hv, Char.ofNat_toNat]
                      · rw [if_neg h11]
                        have hb := char_toNat_lt c
                        have hv : ((((((c.toNat / 268435456 % 16 * 16 + c.toNat / 16777216 % 16) * 16
                            + c.toNat / 1048576 % 16) * 16 + c.toNat / 65536 % 16) * 16
                            + c.toNat / 4096 % 16) * 16 + c.toNat / 256 % 16) * 16
                            + c.toNat / 16 % 16) * 16 + c.toNat % 16 = c.toNat := by omega
                        rw [hexDigits_eight]
                        simp only [List.cons_append]
                        rw [unquoteLoop_backslash, unquoteEsc_bigU,
                          hexVal_lowerHexDigit _ (by omega), hexVal_lowerHexDigit _ (by omega),
                          hexVal_lowerHexDigit _ (by omega), hexVal_lowerHexDigit _ (by omega),
                          hexVal_lowerHexDigit _ (by omega), hexVal_lowerHexDigit _ (by omega),
                          hexVal_lowerHexDigit _ (by omega), hexVal_lowerHexDigit _ (by omega)]
                        simp [hv, Char.ofNat_toNat]

theorem quoteChar_ne_nil (p : Char → Bool) (c : Char) : quoteChar p c ≠ [] := by
  unfold quoteChar
  by_cases h1 : c = '"' ∨ c = '\\'
  · rw [if_pos h1]
    exact List.cons_ne_nil _ _
  · rw [if_neg h1]
    by_cases h2 : p c = true
    · rw [if_pos h2]
      exact List.cons_ne_nil _ _
    · rw [if_neg h2]
      by_cases h3 : c = Char.ofNat 0x07
      · rw [if_pos h3]
        exact List.cons_ne_nil _ _
      · rw [if_neg h3]
        by_cases h4 : c = Char.ofNat 0x08
        · rw [if_pos h4]
          exact List.cons_ne_nil _ _
        · rw [if_neg h4]
          by_cases h5 : c = Char.ofNat 0x0c
          · rw [if_pos h5]
            exact List.cons_ne_nil _ _
          · rw [if_neg h5]
            by_cases h6 : c = Char.ofNat 0x0a
            · rw [if_pos h6]
              exact List.cons_ne_nil _ _
            · rw [if_neg h6]
              by_cases h7 : c = Char.ofNat 0x0d
              · rw [if_pos h7]
                exact List.cons_ne_nil _ _
              · rw [if_neg h7]
                by_cases h8 : c = Char.ofNat 0x09
                · rw [if_pos h8]
                  exact List.cons_ne_nil _ _
                · rw [if_neg h8]
                  by_cases h9 : c = Char.ofNat 0x0b
                  · rw [if_pos h9]
                    exact List.cons_ne_nil _ _
                  · rw [if_neg h9]
                    by_cases h10 : c.toNat < 0x20 ∨ c.toNat = 0x7f
                    · rw [if_pos h10]
                      exact List.cons_ne_nil _ _
                    · rw [if_neg h10]
                      by_cases h11 : c.toNat < 0x10000
                      · rw [if_pos h11]
                        exact List.cons_ne_nil _ _
                      · rw [if_neg h11]
                        exact List.cons_ne_nil _ _

theorem quoteChar_length_pos (p : Char → Bool) (c : Char) : 1 ≤ (quoteChar p c).length := by
  have h := quoteChar_ne_nil p c
  cases hq : quoteChar p c with
  | nil => exact absurd hq h
  | cons a l => simp

theorem quoteBody_length_ge (p : Char → Bool) (s : List Char) :
    s.length ≤ (quoteBody p s).length := by
  induction s with
  | nil => simp [quoteBody]
  | cons c cs ih =>
    have := quoteChar_length_pos p c
    simp only [quoteBody, List.length_append, List.length_cons]
    omega

theorem unquoteLoop_quoteBody (p : Char → Bool) (s : List Char) :
    unquoteLoop (s.length + 1) (quoteBody p s ++ ['"']) = some s := by
  induction s with
  | nil => rfl
  | cons c cs ih =>
    have hl : (c :: cs).length + 1 = (cs.length + 1) + 1 := by simp
    rw [hl]
    simp only [quoteBody]
    rw [List.append_assoc, unquoteLoop_quoteChar, ih]
    rfl

theorem goUnquote_goQuote (p : Char → Bool) (s : List Char) :
    goUnquote (goQuote p s) = some s := by
  show unquoteLoop (quoteBody p s ++ ['"']).length (quoteBody p s ++ ['"']) = some s
  have hge := quoteBody_length_ge p s
  obtain ⟨k, hk⟩ : ∃ k, (quoteBody p s ++ ['"']).length = (s.length + 1) + k := by
    refine ⟨(quoteBody p s).length - s.length, ?_⟩
    simp only [List.length_append, List.length_cons, List.length_nil]
    omega
  rw [hk]
  exact unquoteLoop_mono _ _ _ (unquoteLoop_quoteBody p s) k

/-- Normal form of the check that buildValidationChecks emits for a populated
`min_len` constraint. -/
def minLenCheckOf (fn r fe : String) (v : Nat) : ValidationCheck :=
  { checkType := "minLen"
    Value := GoValue.vnat v
    FieldName := fn
    Receiver := r
    ErrorMsg := "field " ++ fn ++ " must be at least " ++ toString v ++ " characters"
    Code := minLenCheckRender r fn v fe
    FmtErrorf := fe }

/-- Normal form of the check emitted for a populated `max_len` constraint. -/
def maxLenCheckOf (fn r fe : String) (v : Nat) : ValidationCheck :=
  { checkType := "maxLen"
    Value := GoValue.vnat v
    FieldName := fn
    Receiver := r
    ErrorMsg := "field " ++ fn ++ " must be at most " ++ toString v ++ " characters"
    Code := maxLenCheckRender r fn v fe
    FmtErrorf := fe }

/-- Normal form of the check emitted for a populated `pattern` constraint. -/
def patternCheckOf (fn r fe rmc pat : String) : ValidationCheck :=
  { checkType := "pattern"
    Value := GoValue.vstr pat
    FieldName := fn
    Receiver := r
    ErrorMsg := "field " ++ fn ++ " does not match required pattern"
    Code := patternCheckRender r fn (goQuoteString pat) fe rmc
    FmtErrorf := fe
    RegexpMustCompile := rmc
    Pattern := goQuoteString pat }

/-- Normal form of the check emitted for a populated `email` constraint. -/
def emailCheckOf (fn r fe : String) : ValidationCheck :=
  { checkType := "email"
    FieldName := fn
    Receiver := r
    ErrorMsg := "field " ++ fn ++ " must be a valid email address"
    Code := emailCheckRender r fn fe
    FmtErrorf := fe }

/-- Normal form of the check emitted for a populated `min_items` constraint. -/
def minItemsCheckOf (fn r fe : String) (v : Nat) : ValidationCheck :=
  { checkType := "minItems"
    Value := GoValue.vnat v
    FieldName := fn
    Receiver := r
    ErrorMsg := "field " ++ fn ++ " must have at least " ++ toString v ++ " items"
    Code := minItemsCheckRender r fn v fe
    FmtErrorf := fe }

/-- Normal form of the check emitted for a populated `max_items` constraint. -/
def maxItemsCheckOf (fn r fe : String) (v : Nat) : ValidationCheck :=
  { checkType := "maxItems"
    Value := GoValue.vnat v
    FieldName := fn
    Receiver := r
    ErrorMsg := "field " ++ fn ++ " must have at most " ++ toString v ++ " items"
    Code := maxItemsCheckRender r fn v fe
    FmtErrorf := fe }

set_option maxHeartbeats 4000000 in
theorem buildValidationChecks_eq (fv : FieldValidation) (r fe rmc : String) :
    buildValidationChecks fv r fe rmc =
      (match fv.MinLen with
       | some v => [minLenCheckOf fv.FieldName r fe v]
       | none => []) ++
      (match fv.MaxLen with
       | some v => [maxLenCheckOf fv.FieldName r fe v]
       | none => []) ++
      (if fv.Pattern ≠ "" then [patternCheckOf fv.FieldName r fe rmc fv.Pattern] else []) ++
      (if fv.Email then [emailCheckOf fv.FieldName r fe] else []) ++
      (match fv.MinItems with
       | some v => [minItemsCheckOf fv.FieldName r fe v]
       | none => []) ++
      (match fv.MaxItems with
       | some v => [maxItemsCheckOf fv.FieldName r fe v]
       | none => []) := by
  rcases hml : fv.MinLen with _ | v1 <;>
    rcases hMl : fv.MaxLen with _ | v2 <;>
    rcases hmi : fv.MinItems with _ | v3 <;>
    rcases hma : fv.MaxItems with _ | v4 <;>
    by_cases hp : fv.Pattern = "" <;>
    by_cases he : fv.Email = true <;>
    by_cases hr : rmc = "" <;>
    simp [buildValidationChecks, addValidationCheck, hml, hMl, hmi, hma, hp, he, hr,
      minLenCheckRender_ne, maxLenCheckRender_ne, patternCheckRender_ne,
      emailCheckRender_ne, minItemsCheckRender_ne, maxItemsCheckRender_ne,
      goQuoteString_ne, minLenCheckOf, maxLenCheckOf, patternCheckOf,
      emailCheckOf, minItemsCheckOf, maxItemsCheckOf]

/-- C1: for every FieldRule, buildValidationChecks returns exactly one
ValidationCheck per populated constraint and none for an absent constraint, in
the fixed order minLen, maxLen, pattern, email, minItems, maxItems; in
particular a field with all six constraints populated yields exactly six
checks in that order. -/
theorem C1_check_order (fv : FieldValidation) (r fe rmc : String) :
    (buildValidationChecks fv r fe rmc).map ValidationCheck.checkType =
      (if fv.MinLen.isSome then ["minLen"] else []) ++
      (if fv.MaxLen.isSome then ["maxLen"] else []) ++
      (if fv.Pattern ≠ "" then ["pattern"] else []) ++
      (if fv.Email then ["email"] else []) ++
      (if fv.MinItems.isSome then ["minItems"] else []) ++
      (if fv.MaxItems.isSome then ["maxItems"] else []) := by
  rw [buildValidationChecks_eq]
  rcases hml : fv.MinLen with _ | v1 <;>
    rcases hMl : fv.MaxLen with _ | v2 <;>
    rcases hmi : fv.MinItems with _ | v3 <;>
    rcases hma : fv.MaxItems with _ | v4 <;>
    by_cases hp : fv.Pattern = "" <;>
    by_cases he : fv.Email = true <;>
    simp [hml, hMl, hmi, hma, hp, he, minLenCheckOf, maxLenCheckOf,
      patternCheckOf, emailCheckOf, minItemsCheckOf, maxItemsCheckOf]

/-- C4: for every input pattern string, the `%q` escaping used by
buildValidationChecks to embed the pattern as a quoted literal in the
generated regexp-compilation call is a faithful round-trip: unescaping the
embedded literal recovers exactly the original pattern (proved for an
arbitrary printability predicate by goUnquote_goQuote, instantiated here with
the concrete pipeline escaping). -/
theorem C4_pattern_roundtrip (fv : FieldValidation) (r fe rmc : String)
    (hp : fv.Pattern ≠ "") :
    ∃ c ∈ buildValidationChecks fv r fe rmc,
      c.checkType = "pattern" ∧ c.Pattern = goQuoteString fv.Pattern ∧
      goUnquote c.Pattern.data = some fv.Pattern.data := by
  refine ⟨patternCheckOf fv.FieldName r fe rmc fv.Pattern, ?_, rfl, rfl, ?_⟩
  · rw [buildValidationChecks_eq]
    simp [hp]
  · show goUnquote (goQuote goIsPrint fv.Pattern.data) = some fv.Pattern.data
    exact goUnquote_goQuote goIsPrint fv.Pattern.data

/-- Concrete field rule whose pattern contains a quote, backslashes, newline
and non-ASCII code points. -/
def c4Field : FieldValidation :=
  { FieldName := "Code", Pattern := "^a\"b\\c\né€😀$" }

theorem C4_pattern_roundtrip_witness :
    ∃ c ∈ buildValidationChecks c4Field "m" "fmt.Errorf" "regexp.MustCompile",
      c.checkType = "pattern" ∧ c.Pattern = goQuoteString c4Field.Pattern ∧
      goUnquote c.Pattern.data = some c4Field.Pattern.data :=
  C4_pattern_roundtrip c4Field "m" "fmt.Errorf" "regexp.MustCompile" (by decide)

/-- C10: for a field whose only constraint is minLength = N, exactly one check
is generated; its error message contains "at least N"; running the generated
method on a value of length N - 1 fails with that message and on a value of
length N passes. -/
theorem C10_minlen_boundary (name r fe rmc : String) (N : Nat) (hN : 0 < N) :
    ∃ c, buildValidationChecks { FieldName := name, MinLen := some N } r fe rmc = [c] ∧
      c.checkType = "minLen" ∧
      (∃ pre post, c.ErrorMsg = pre ++ ("at least " ++ toString N) ++ post) ∧
      (∀ env : GoEnv, env.strLen name = N - 1 →
        validateMethodSem [{ FieldName := name, Validations := [c] }] env = some c.ErrorMsg) ∧
      (∀ env : GoEnv, env.strLen name = N →
        validateMethodSem [{ FieldName := name, Validations := [c] }] env = none) := by
  refine ⟨minLenCheckOf name r fe N, ?_, rfl, ?_, ?_, ?_⟩
  · rw [buildValidationChecks_eq]
    simp
  · refine ⟨"field " ++ name ++ " must be ", " characters", ?_⟩
    simp only [minLenCheckOf]
    simp only [String.append_assoc]
    have h2 : (" must be at least " ++ (toString N ++ " characters") : String)
        = " must be " ++ ("at least " ++ (toString N ++ " characters")) := by
      rw [show (" must be at least " : String) = " must be " ++ "at least " from by decide,
        String.append_assoc]
    rw [h2]
  · intro env hlen
    have hlt : env.strLen name < N := by omega
    simp [validateMethodSem, checkDenote, minLenCheckOf, hlt]
  · intro env hlen
    have hnlt : ¬ (env.strLen name < N) := by omega
    simp [validateMethodSem, checkDenote, minLenCheckOf, hnlt]

theorem C10_minlen_boundary_witness :
    0 < 5 ∧
    (∃ c, buildValidationChecks { FieldName := "Title", MinLen := some 5 } "m" "fmt.Errorf"
        "regexp.MustCompile" = [c] ∧
      c.checkType = "minLen" ∧
      (∃ pre post, c.ErrorMsg = pre ++ ("at least " ++ toString 5) ++ post) ∧
      (∀ env : GoEnv, env.strLen "Title" = 5 - 1 →
        validateMethodSem [{ FieldName := "Title", Validations := [c] }] env = some c.ErrorMsg) ∧
      (∀ env : GoEnv, env.strLen "Title" = 5 →
        validateMethodSem [{ FieldName := "Title", Validations := [c] }] env = none)) :=
  ⟨by decide, C10_minlen_boundary "Title" "m" "fmt.Errorf" "regexp.MustCompile" 5 (by decide)⟩

/-- C3: the extractor copies minLength/maxLength (string rules) and
minItems/maxItems (repeated rules) into the FieldRule if and only if they are
explicitly present on the wire: the extracted optional constraint equals the
wire-level optional field, so an explicitly present `min_len = 0` is recorded
as the constraint 0, distinct from an absent `min_len` which stays unset. -/
theorem C3_explicit_presence (f : ProtoField) (rules : FieldRules)
    (h : f.rules = some rules) :
    (extractFieldValidation f).isSome = true ∧
    (extractFieldValidation f).map (fun v => v.MinLen) =
      some (rules.string_.bind fun s => s.MinLen) ∧
    (extractFieldValidation f).map (fun v => v.MaxLen) =
      some (rules.string_.bind fun s => s.MaxLen) ∧
    (extractFieldValidation f).map (fun v => v.MinItems) =
      some (rules.repeated.bind fun rr => rr.MinItems) ∧
    (extractFieldValidation f).map (fun v => v.MaxItems) =
      some (rules.repeated.bind fun rr => rr.MaxItems) := by
  rcases hs : rules.string_ with _ | s <;> rcases hr : rules.repeated with _ | rr
  · simp [extractFieldValidation, h, hs, hr]
  · rcases hmi : rr.MinItems with _ | v3 <;> rcases hma : rr.MaxItems with _ | v4 <;>
      simp [extractFieldValidation, h, hs, hr, hmi, hma]
  · rcases hml : s.MinLen with _ | v1 <;> rcases hMl : s.MaxLen with _ | v2 <;>
      rcases hp : s.Pattern with _ | p <;> by_cases he : s.Email = true <;>
      simp [extractFieldValidation, h, hs, hr, hml, hMl, hp, he]
  · rcases hml : s.MinLen with _ | v1 <;> rcases hMl : s.MaxLen with _ | v2 <;>
      rcases hp : s.Pattern with _ | p <;> by_cases he : s.Email = true <;>
      rcases hmi : rr.MinItems with _ | v3 <;> rcases hma : rr.MaxItems with _ | v4 <;>
      simp [extractFieldValidation, h, hs, hr, hml, hMl, hp, he, hmi, hma]

/-- Concrete field carrying an explicitly present `min_len = 0`, an absent
`max_len`, and explicitly present repeated bounds. -/
def c3Field : ProtoField :=
  { GoName := "Title"
    rules := some
      { string_ := some { MinLen := some 0 }
        repeated := some { MinItems := some 2 } } }

theorem C3_explicit_presence_witness :
    (extractFieldValidation c3Field).isSome = true ∧
    (extractFieldValidation c3Field).map (fun v => v.MinLen) =
      some ((c3Field.rules.get rfl).string_.bind fun s => s.MinLen) ∧
    (extractFieldValidation c3Field).map (fun v => v.MaxLen) =
      some ((c3Field.rules.get rfl).string_.bind fun s => s.MaxLen) ∧
    (extractFieldValidation c3Field).map (fun v => v.MinItems) =
      some ((c3Field.rules.get rfl).repeated.bind fun rr => rr.MinItems) ∧
    (extractFieldValidation c3Field).map (fun v => v.MaxItems) =
      some ((c3Field.rules.get rfl).repeated.bind fun rr => rr.MaxItems) :=
  C3_explicit_presence c3Field (c3Field.rules.get rfl) rfl

/-- Concrete field whose `validate.rules` extension is present but carries
neither string-kind nor repeated-kind rules (as a field annotated only with
numeric-range rules would be: the generator never reads those groups). -/
def c2Field : ProtoField :=
  { GoName := "Age", kind := "int32", rules := some {} }

/-- C2 counterexample: a field whose validation-rule extension is present but
yields no populated constraint still contributes a FieldRule: the extractor
returns a (constraint-less) FieldValidation, and extractMessageInfo retains it
in the message's field list — contradicting the claim that such a field
contributes no FieldRule. -/
theorem C2_counterexample :
    (extractFieldValidation c2Field).map hasPopulatedConstraint = some false ∧
    (extractMessageInfo { GoName := "M", fields := [c2Field] }).Fields.length = 1 := by
  constructor <;> rfl

/-- C2 amended: a FieldRule exists in the extracted Rule Model exactly when
the field's validation-rule extension is present and decodes — regardless of
whether any constraint ended up populated. -/
theorem C2_fieldrule_exists (f : ProtoField) :
    (extractFieldValidation f).isSome = f.rules.isSome := by
  rcases h : f.rules with _ | rules
  · simp [extractFieldValidation, h]
  · rcases hs : rules.string_ with _ | s <;> rcases hr : rules.repeated with _ | rr
    · simp [extractFieldValidation, h, hs, hr]
    · rcases hmi : rr.MinItems with _ | v3 <;> rcases hma : rr.MaxItems with _ | v4 <;>
        simp [extractFieldValidation, h, hs, hr, hmi, hma]
    · rcases hml : s.MinLen with _ | v1 <;> rcases hMl : s.MaxLen with _ | v2 <;>
        rcases hp : s.Pattern with _ | p <;> by_cases he : s.Email = true <;>
        simp [extractFieldValidation, h, hs, hr, hml, hMl, hp, he]
    · rcases hml : s.MinLen with _ | v1 <;> rcases hMl : s.MaxLen with _ | v2 <;>
        rcases hp : s.Pattern with _ | p <;> by_cases he : s.Email = true <;>
        rcases hmi : rr.MinItems with _ | v3 <;> rcases hma : rr.MaxItems with _ | v4 <;>
        simp [extractFieldValidation, h, hs, hr, hml, hMl, hp, he, hmi, hma]

/-- C6: a non-map-entry message with zero retained FieldRules still gets a
validation method whose body is exactly the unconditional "return nil", and
the semantics of that generated method yields no error for every possible
input environment. -/
theorem C6_empty_message (msg : ProtoMessage) (fe rmc : String)
    (h : (extractMessageInfo msg).Fields = []) :
    buildFieldValidations (extractMessageInfo msg) fe rmc = [] ∧
    renderValidateMethod
      { MessageName := (extractMessageInfo msg).GoName
        ReceiverName := (extractMessageInfo msg).ReceiverName
        Fields := buildFieldValidations (extractMessageInfo msg) fe rmc
        FmtErrorf := fe
        RegexpMustCompile := rmc } =
      "func (" ++ getReceiverName msg.GoName ++ " *" ++ msg.GoName ++
        ") Validate() error \x7b\n\treturn nil\n\x7d\n\n" ∧
    (∀ env : GoEnv,
      validateMethodSem (buildFieldValidations (extractMessageInfo msg) fe rmc) env = none) := by
  have h1 : buildFieldValidations (extractMessageInfo msg) fe rmc = [] := by
    simp [buildFieldValidations, h]
  refine ⟨h1, ?_, ?_⟩
  · rw [h1]
    simp only [renderValidateMethod, extractMessageInfo, List.map_nil, concatStr]
    rw [show (") Validate() error \x7b\n\treturn nil\n\x7d\n\n" : String) =
      ") Validate() error \x7b\n" ++ "\treturn nil\n\x7d\n\n" from by decide]
    simp [String.append_assoc, String.append_empty]
  · intro env
    rw [h1]
    rfl

/-- Concrete message with one field that carries no validation extension. -/
def c6Message : ProtoMessage :=
  { GoName := "EmptyMessage", fields := [{ GoName := "Name" }] }

theorem C6_empty_message_witness :
    (extractMessageInfo c6Message).Fields = [] ∧
    (buildFieldValidations (extractMessageInfo c6Message) "fmt.Errorf" "regexp.MustCompile" = [] ∧
    renderValidateMethod
      { MessageName := (extractMessageInfo c6Message).GoName
        ReceiverName := (extractMessageInfo c6Message).ReceiverName
        Fields := buildFieldValidations (extractMessageInfo c6Message) "fmt.Errorf" "regexp.MustCompile"
        FmtErrorf := "fmt.Errorf"
        RegexpMustCompile := "regexp.MustCompile" } =
      "func (" ++ getReceiverName c6Message.GoName ++ " *" ++ c6Message.GoName ++
        ") Validate() error \x7b\n\treturn nil\n\x7d\n\n" ∧
    (∀ env : GoEnv,
      validateMethodSem
        (buildFieldValidations (extractMessageInfo c6Message) "fmt.Errorf" "regexp.MustCompile")
        env = none)) :=
  ⟨by rfl, C6_empty_message c6Message "fmt.Errorf" "regexp.MustCompile" (by rfl)⟩

theorem foldl_concatStr {α : Type} (l : List α) (g : α → String) (init : String) :
    l.foldl (fun acc x => acc ++ g x) init = init ++ concatStr (l.map g) := by
  induction l generalizing init with
  | nil => simp [concatStr, String.append_empty]
  | cons x xs ih => simp [List.foldl_cons, concatStr, ih, String.append_assoc]

theorem generateCodeWithTemplatesE_some (hdr : FileInfo → String × Bool)
    (mth : ValidateMethodData → String × Bool) (eml : String → String × Bool)
    (fmtS : String → Option String) (fi : FileInfo) (hok : (hdr fi).2 = true) :
    generateCodeWithTemplatesE hdr mth eml fmtS fi =
      some ((fmtS (rawRendered hdr mth eml fi)).getD (rawRendered hdr mth eml fi)) := by
  simp [generateCodeWithTemplatesE, rawRendered, hok]

/-- Method-template behavior that fails (leaving partial output in the
buffer) on the message named "A" and succeeds on every other message. -/
def c7MethodTmpl (d : ValidateMethodData) : String × Bool :=
  if d.MessageName = "A" then ("PARTIAL", false) else (renderValidateMethod d, true)

/-- File with two messages, the first of which hits the failing template. -/
def c7FileInfo : FileInfo :=
  { PackageName := "x"
    SourcePath := "x.proto"
    Messages := [{ GoName := "A", ReceiverName := "a" }, { GoName := "B", ReceiverName := "b" }]
    NeedsEmail := false
    FmtErrorf := "fmt.Errorf"
    RegexpMustCompile := "regexp.MustCompile" }

/-- C7 counterexample: a method-template error is not fatal for the file —
the template for message "A" fails after writing "PARTIAL" into the buffer,
yet the file is still emitted, containing the partial output followed by the
next message's method. -/
theorem C7_counterexample :
    (c7MethodTmpl { MessageName := "A", ReceiverName := "a", Fields := [],
                    FmtErrorf := "fmt.Errorf", RegexpMustCompile := "regexp.MustCompile" }).2 = false ∧
    generateCodeWithTemplatesE fileHeaderTmplRun c7MethodTmpl isValidEmailTmplRun
        (fun s => some s) c7FileInfo =
      some (fileHeaderRender c7FileInfo ++ "PARTIAL" ++
        renderValidateMethod { MessageName := "B", ReceiverName := "b", Fields := [],
                               FmtErrorf := "fmt.Errorf",
                               RegexpMustCompile := "regexp.MustCompile" }) := by
  constructor
  · rfl
  · rfl

/-- C7 amended: only a file-header template failure aborts the file (nothing
is written); per-message method-template failures and email-helper failures
are not fatal — whatever text the failing template produced stays in the
buffer and the file is still emitted. -/
theorem C7_template_error_policy (hdr : FileInfo → String × Bool)
    (mth : ValidateMethodData → String × Bool) (eml : String → String × Bool)
    (fmtS : String → Option String) (fi : FileInfo) (hfmt : ∀ s, fmtS s = some s) :
    (generateCodeWithTemplatesE hdr mth eml fmtS fi = none ↔ (hdr fi).2 = false) ∧
    ((hdr fi).2 = true →
      generateCodeWithTemplatesE hdr mth eml fmtS fi =
        some ((hdr fi).1 ++ concatStr ((methodDatas fi).map (fun d => (mth d).1)) ++
          (if fi.NeedsEmail then (eml fi.RegexpMustCompile).1 else ""))) := by
  constructor
  · cases hb : (hdr fi).2 <;> simp [generateCodeWithTemplatesE, hb]
  · intro hok
    rw [generateCodeWithTemplatesE_some hdr mth eml fmtS fi hok, hfmt]
    unfold rawRendered
    rw [foldl_concatStr]
    by_cases he : fi.NeedsEmail <;>
      simp [he, String.append_assoc, String.append_empty]

theorem C7_template_error_policy_witness :
    (generateCodeWithTemplatesE fileHeaderTmplRun validateMethodTmplRun isValidEmailTmplRun
        (fun s => some s) c7FileInfo = none ↔ (fileHeaderTmplRun c7FileInfo).2 = false) ∧
    ((fileHeaderTmplRun c7FileInfo).2 = true →
      generateCodeWithTemplatesE fileHeaderTmplRun validateMethodTmplRun isValidEmailTmplRun
          (fun s => some s) c7FileInfo =
        some ((fileHeaderTmplRun c7FileInfo).1 ++
          concatStr ((methodDatas c7FileInfo).map (fun d => (validateMethodTmplRun d).1)) ++
          (if c7FileInfo.NeedsEmail then (isValidEmailTmplRun c7FileInfo.RegexpMustCompile).1
           else ""))) :=
  C7_template_error_policy fileHeaderTmplRun validateMethodTmplRun isValidEmailTmplRun
    (fun s => some s) c7FileInfo (fun _ => rfl)

/-- File info used for the formatter-failure counterexample. -/
def c8FileInfo : FileInfo :=
  { PackageName := "y"
    SourcePath := "y.proto"
    Messages := [{ GoName := "M", ReceiverName := "m" }]
    NeedsEmail := false
    FmtErrorf := "fmt.Errorf"
    RegexpMustCompile := "regexp.MustCompile" }

/-- C8 counterexample: when source formatting fails, the generator's output is
byte-identical to the output of a run in which formatting succeeded as the
identity — the failure is swallowed: no error signal reaches the caller,
contradicting the claim that the condition is surfaced as a defect. -/
theorem C8_counterexample :
    generateCodeWithTemplates (fun _ => none) c8FileInfo =
      some (rawRendered fileHeaderTmplRun validateMethodTmplRun isValidEmailTmplRun c8FileInfo) ∧
    generateCodeWithTemplates (fun _ => none) c8FileInfo =
      generateCodeWithTemplates (fun s => some s) c8FileInfo := by
  constructor
  · rfl
  · rfl

/-- C8 amended: if formatting fails, the emitter falls back to writing the
unformatted rendered text unchanged, but the condition is swallowed silently:
the emitted result is identical to that of a successful identity-formatting
run, and no error indication exists in the generator's output. -/
theorem C8_format_fallback_silent (hdr : FileInfo → String × Bool)
    (mth : ValidateMethodData → String × Bool) (eml : String → String × Bool)
    (fmtS : String → Option String) (fi : FileInfo)
    (hok : (hdr fi).2 = true) (hfail : fmtS (rawRendered hdr mth eml fi) = none) :
    generateCodeWithTemplatesE hdr mth eml fmtS fi = some (rawRendered hdr mth eml fi) ∧
    generateCodeWithTemplatesE hdr mth eml fmtS fi =
      generateCodeWithTemplatesE hdr mth eml (fun s => some s) fi := by
  have h1 := generateCodeWithTemplatesE_some hdr mth eml fmtS fi hok
  have h2 := generateCodeWithTemplatesE_some hdr mth eml (fun s => some s) fi hok
  rw [hfail] at h1
  simp only [Option.getD_none] at h1
  simp only [Option.getD_some] at h2
  exact ⟨h1, h1.trans h2.symm⟩

theorem C8_format_fallback_silent_witness :
    ((fileHeaderTmplRun c8FileInfo).2 = true ∧
      (fun _ => (none : Option String))
        (rawRendered fileHeaderTmplRun validateMethodTmplRun isValidEmailTmplRun c8FileInfo) = none) ∧
    (generateCodeWithTemplatesE fileHeaderTmplRun validateMethodTmplRun isValidEmailTmplRun
        (fun _ => none) c8FileInfo =
      some (rawRendered fileHeaderTmplRun validateMethodTmplRun isValidEmailTmplRun c8FileInfo) ∧
    generateCodeWithTemplatesE fileHeaderTmplRun validateMethodTmplRun isValidEmailTmplRun
        (fun _ => none) c8FileInfo =
      generateCodeWithTemplatesE fileHeaderTmplRun validateMethodTmplRun isValidEmailTmplRun
        (fun s => some s) c8FileInfo) :=
  ⟨⟨rfl, rfl⟩, C8_format_fallback_silent fileHeaderTmplRun validateMethodTmplRun
    isValidEmailTmplRun (fun _ => none) c8FileInfo rfl rfl⟩

theorem concatStr_mem_split {α : Type} (x : α) (l : List α) (g : α → String) (h : x ∈ l) :
    ∃ a b, concatStr (l.map g) = a ++ (g x ++ b) := by
  induction l with
  | nil => cases h
  | cons y ys ih =>
    rcases List.mem_cons.mp h with h | h
    · subst h
      exact ⟨"", concatStr (ys.map g), by simp [concatStr, String.empty_append]⟩
    · rcases ih h with ⟨a, b, hab⟩
      exact ⟨g y ++ a, b, by simp [concatStr, hab, String.append_assoc]⟩

theorem renderValidateMethod_sig (d : ValidateMethodData) :
    ∃ rest, renderValidateMethod d =
      ("func (" ++ d.ReceiverName ++ " *" ++ d.MessageName ++ ") Validate() error") ++ rest := by
  refine ⟨" \x7b\n" ++
    (concatStr (d.Fields.map fun f => concatStr (f.Validations.map (fun c => c.Code ++ "\n"))) ++
      "\treturn nil\n\x7d\n\n"), ?_⟩
  unfold renderValidateMethod
  have hx : ∀ X : String, (") Validate() error \x7b\n" : String) ++ X =
      ") Validate() error" ++ (" \x7b\n" ++ X) := by
    intro X
    rw [← String.append_assoc]
    congr 1
  simp [String.append_assoc, hx]

/-- C5 counterexample: a schema file with no (non-map-entry) messages
produces no output file at all, contradicting the claim that exactly one
generated file is produced for every schema file processed. -/
theorem C5_counterexample :
    generateFileWithTemplate (fun s => some s)
      { GeneratedFilenamePrefix := "proto/empty", GoPackageName := "emptyv1",
        path := "proto/empty.proto", Messages := [] } = none := rfl

/-- C5 amended: for every schema file containing at least one non-map-entry
message (and a formatter acting as the identity on the rendered text), exactly
one output file is produced, named with the same path stem plus the fixed
suffix ".pb.validate.go", and its content contains the validation-method
signature of every non-map-entry message of the file. -/
theorem C5_output_file (f : ProtoFile) (fmtS : String → Option String)
    (hfmt : ∀ s, fmtS s = some s) (hmsg : hasMessages f = true) :
    ∃ content, generateFileWithTemplate fmtS f =
        some (f.GeneratedFilenamePrefix ++ ".pb.validate.go", content) ∧
      ∀ m ∈ f.Messages, m.isMapEntry = false →
        ∃ pre post, content = pre ++ methodSignature m ++ post := by
  have hok : (fileHeaderTmplRun (extractFileInfo f "fmt.Errorf" "regexp.MustCompile")).2
      = true := rfl
  have hgen := generateCodeWithTemplatesE_some fileHeaderTmplRun validateMethodTmplRun
    isValidEmailTmplRun fmtS (extractFileInfo f "fmt.Errorf" "regexp.MustCompile") hok
  rw [hfmt] at hgen
  simp only [Option.getD_some] at hgen
  refine ⟨rawRendered fileHeaderTmplRun validateMethodTmplRun isValidEmailTmplRun
    (extractFileInfo f "fmt.Errorf" "regexp.MustCompile"), ?_, ?_⟩
  · unfold generateFileWithTemplate generateCodeWithTemplates
    rw [hmsg]
    rw [hgen]
    rfl
  · intro m hm hme
    have hmem : ({ MessageName := m.GoName
                   ReceiverName := getReceiverName m.GoName
                   Fields := buildFieldValidations (extractMessageInfo m) "fmt.Errorf"
                     "regexp.MustCompile"
                   FmtErrorf := "fmt.Errorf"
                   RegexpMustCompile := "regexp.MustCompile" } : ValidateMethodData) ∈
        methodDatas (extractFileInfo f "fmt.Errorf" "regexp.MustCompile") := by
      unfold methodDatas
      apply List.mem_map.mpr
      refine ⟨extractMessageInfo m, ?_, rfl⟩
      show extractMessageInfo m ∈ (extractFileInfo f "fmt.Errorf" "regexp.MustCompile").Messages
      unfold extractFileInfo
      apply List.mem_map.mpr
      exact ⟨m, List.mem_filter.mpr ⟨hm, by simp [hme]⟩, rfl⟩
    obtain ⟨a, b, hab⟩ := concatStr_mem_split _ (methodDatas
      (extractFileInfo f "fmt.Errorf" "regexp.MustCompile"))
      (fun d => (validateMethodTmplRun d).1) hmem
    obtain ⟨rest, hrest⟩ := renderValidateMethod_sig
      { MessageName := m.GoName
        ReceiverName := getReceiverName m.GoName
        Fields := buildFieldValidations (extractMessageInfo m) "fmt.Errorf" "regexp.MustCompile"
        FmtErrorf := "fmt.Errorf"
        RegexpMustCompile := "regexp.MustCompile" }
    refine ⟨(fileHeaderTmplRun (extractFileInfo f "fmt.Errorf" "regexp.MustCompile")).1 ++ a,
      rest ++ b ++
        (if (extractFileInfo f "fmt.Errorf" "regexp.MustCompile").NeedsEmail then
          (isValidEmailTmplRun
            (extractFileInfo f "fmt.Errorf" "regexp.MustCompile").RegexpMustCompile).1
         else ""), ?_⟩
    unfold rawRendered
    rw [foldl_concatStr, hab]
    have hg : (validateMethodTmplRun
        { MessageName := m.GoName
          ReceiverName := getReceiverName m.GoName
          Fields := buildFieldValidations (extractMessageInfo m) "fmt.Errorf" "regexp.MustCompile"
          FmtErrorf := "fmt.Errorf"
          RegexpMustCompile := "regexp.MustCompile" }).1 =
      ("func (" ++ getReceiverName m.GoName ++ " *" ++ m.GoName ++ ") Validate() error") ++
        rest := hrest
    rw [hg]
    unfold methodSignature
    by_cases he : (extractFileInfo f "fmt.Errorf" "regexp.MustCompile").NeedsEmail <;>
      simp [he, String.append_assoc, String.append_empty]

/-- Concrete one-message schema file for the C5 witness. -/
def c5File : ProtoFile :=
  { GeneratedFilenamePrefix := "notes/v1/notes"
    GoPackageName := "notesv1"
    path := "notes/v1/notes.proto"
    Messages := [{ GoName := "Note" }] }

theorem C5_output_file_witness :
    hasMessages c5File = true ∧
    (∃ content, generateFileWithTemplate (fun s => some s) c5File =
        some (c5File.GeneratedFilenamePrefix ++ ".pb.validate.go", content) ∧
      ∀ m ∈ c5File.Messages, m.isMapEntry = false →
        ∃ pre post, content = pre ++ methodSignature m ++ post) :=
  ⟨rfl, C5_output_file c5File (fun s => some s) (fun _ => rfl) rfl⟩
